import Mathlib

/-!
Verification of the gopher_social request access-control pipeline.

This file shallowly embeds the Go source of the repository: the cache-aside
identity resolution (application.getUser), the bearer-token middleware
(application.AuthTokenMiddleware), the ownership-or-role gate
(application.checkPostOwnership / checkRolePrecedence), the rate-limiter
middleware (application.RateLimiterMiddleware), the password representation
(store.password), the user store (store.UserStore) and the create-post
handler (application.createPostHandler).  External collaborators whose code
is not part of the repository (the bcrypt primitive, the JWT authenticator,
the Redis user cache, the rate limiter implementation) are modelled from the
specification and marked as such in their doc comments.

Machine integers (Go int64) are modelled as Int; the 64-bit range only
matters in strconv.ParseInt, where the bounds are checked explicitly.
Strings are modelled as List Char where character-level structure matters
(header splitting, decimal formatting and parsing) and as String elsewhere.
-/

/-- Go errors relevant to the pipeline.  errRecordNotFound models the
sentinel store.ErrRecordNotFound; duplicateEmail and duplicateUsername model
store.ErrDuplicateEmail / store.ErrDuplicateUsername; every other error
value (infrastructure failures such as an unreachable cache or a failing
database) is carried as its message. -/
inductive Err where
  | errRecordNotFound : Err
  | duplicateEmail : Err
  | duplicateUsername : Err
  | other : String → Err
deriving DecidableEq, Repr

/-- store.Role: numeric ID, unique name, integer privilege level,
description. -/
structure Role where
  id : Int
  name : String
  level : Int
  description : String
deriving DecidableEq, Repr

/-- Modelled from the spec: the bcrypt-class adaptive salted hash produced
by golang.org/x/crypto/bcrypt.GenerateFromPassword, which is outside the
repository.  The digest is modelled extensionally: the spec idealises
verification as succeeding exactly for the original secret, which makes the
digest a value that determines the secret; one-wayness is a computational
property outside the model.  The random salt is an explicit parameter. -/
structure BcryptHash where
  cost : Nat
  salt : Nat
  digest : String
deriving DecidableEq, Repr

/-- Modelled from the spec: bcrypt.GenerateFromPassword with an explicit
salt.  bcrypt never fails on valid input, so no error case is modelled. -/
def bcryptGenerateFromPassword (salt cost : Nat) (text : String) : BcryptHash :=
  { cost := cost, salt := salt, digest := text }

/-- Modelled from the spec: bcrypt.CompareHashAndPassword; true models a nil
error, false models the mismatch error. -/
def bcryptCompareHashAndPassword (h : BcryptHash) (text : String) : Bool :=
  h.digest == text

/-- bcrypt.DefaultCost. -/
def bcryptDefaultCost : Nat := 10

/-- store.password: the unexported struct holding the raw text (a *string,
nil when never set) and the bcrypt hash (nil slice when never set). -/
structure password where
  text : Option String
  hash : Option BcryptHash
deriving DecidableEq, Repr

/-- store.password.Set: hashes the raw secret and stores BOTH the raw text
and the hash on the receiver (the Go method mutates the receiver; the model
returns the updated value).  The error return of the Go method only fires
when bcrypt fails, which cannot happen on valid input, so it is not
modelled. -/
def password.Set (p : password) (salt : Nat) (text : String) : password :=
  let h := bcryptGenerateFromPassword salt bcryptDefaultCost text
  { p with text := some text, hash := some h }

/-- store.password.Compare: bcrypt comparison of the stored hash against an
attempted secret.  A never-set hash (nil slice) fails the comparison. -/
def password.Compare (p : password) (text : String) : Bool :=
  match p.hash with
  | none => false
  | some h => bcryptCompareHashAndPassword h text

/-- store.User.  Go holds Role as a pointer (*Role); the model uses a plain
Role, with roleZero standing for the zero value. -/
structure User where
  id : Int
  username : String
  email : String
  password : password
  isActive : Bool
  roleID : Int
  role : Role
deriving DecidableEq, Repr

/-- The zero Role value, standing in for an unset role reference. -/
def roleZero : Role := { id := 0, name := "", level := 0, description := "" }

/-- store.NewUser: builds a user with the given username and email and the
password set from the raw secret (the salt drawn by bcrypt is an explicit
parameter).  The remaining fields keep their zero values. -/
def NewUser (username email rawPassword : String) (salt : Nat) : User :=
  let pwd := password.Set { text := none, hash := none } salt rawPassword
  { id := 0, username := username, email := email, password := pwd,
    isActive := false, roleID := 0, role := roleZero }

/- ## Decimal formatting and parsing
Machinery for fmt.Sprintf with the %.f verb and strconv.ParseInt. -/

/-- The character of a single decimal digit. -/
def digitChar (d : Nat) : Char := Char.ofNat (48 + d)

/-- The decimal digits of a natural number, least significant first, with
explicit fuel so the recursion is structural and the kernel can evaluate
it (fuel n is always enough, as each step divides by ten). -/
def natDigitsRev (fuel n : Nat) : List Nat :=
  match fuel with
  | 0 => []
  | fuel + 1 => if n = 0 then [] else n % 10 :: natDigitsRev fuel (n / 10)

/-- Decimal digit characters of a natural number, most significant first
(empty for zero). -/
def digitChars (n : Nat) : List Char := (natDigitsRev n n).reverse.map digitChar

/-- Decimal rendering of a natural number. -/
def natDec (n : Nat) : List Char := if n = 0 then ['0'] else digitChars n

/-- fmt.Sprintf with verb %.f applied to an integral value: the exact
decimal digits, no fractional part, a leading minus sign when negative. -/
def sprintfNoFrac (v : Int) : List Char :=
  if v < 0 then '-' :: natDec v.natAbs else natDec v.natAbs

/-- Numeric value of a decimal digit character. -/
def digitVal (c : Char) : Nat := c.toNat - 48

/-- Whether a character is a decimal digit. -/
def isDigitChar (c : Char) : Bool := 48 ≤ c.toNat && c.toNat ≤ 57

/-- Parse an unsigned decimal numeral: every character must be a digit and
there must be at least one. -/
def parseNatDec (cs : List Char) : Option Nat :=
  if cs.isEmpty then none
  else if cs.all isDigitChar then
    some (cs.foldl (fun a c => a * 10 + digitVal c) 0)
  else none

/-- strconv.ParseInt with base 10 and bitSize 64: optional sign, decimal
digits, and a range check against the int64 bounds (failure outside
[-2^63, 2^63 - 1] models the ErrRange error). -/
def parseInt64 (cs : List Char) : Option Int :=
  match cs with
  | [] => none
  | c :: rest =>
    if c = '-' then
      (parseNatDec rest).bind fun n =>
        if (n : Int) ≤ 2 ^ 63 then some (-(n : Int)) else none
    else if c = '+' then
      (parseNatDec rest).bind fun n =>
        if (n : Int) < 2 ^ 63 then some ((n : Int)) else none
    else
      (parseNatDec (c :: rest)).bind fun n =>
        if (n : Int) < 2 ^ 63 then some ((n : Int)) else none

/-- strings.Split with a single-character separator: splits on every
occurrence, keeping empty fields, never dropping the last field. -/
def splitOnChar (sep : Char) : List Char → List (List Char)
  | [] => [[]]
  | c :: rest =>
    if c = sep then [] :: splitOnChar sep rest
    else
      match splitOnChar sep rest with
      | [] => [[c]]
      | p :: ps => (c :: p) :: ps

/- ## Token model
The JWT authenticator (GenerateToken / ValidateToken) lives outside the
repository; it is modelled from the spec. -/

/-- Modelled from the spec: the claims of a token — a subject identifier
(the numeric identity ID) and the temporal claims issued-at and expiry.
Issuer and audience are constants of the deployment and are omitted because
no verified property concerns them. -/
structure TokenClaims where
  sub : Int
  exp : Int
  iat : Int
deriving DecidableEq, Repr

/-- Modelled from the spec: the keyed signature over the claims.  Forgery
resistance is computational and outside the model; validation only ever
recomputes this function over the claims carried by the token. -/
def signClaims (secret : Nat) (c : TokenClaims) : Nat :=
  let enc : Int → Nat := fun v => 2 * v.natAbs + (if v < 0 then 1 else 0)
  secret + 1000003 * enc c.sub + 1000033 * enc c.exp + 1000037 * enc c.iat

/-- Modelled from the spec: a signed token — claims plus signature. -/
structure Token where
  claims : TokenClaims
  sig : Nat
deriving DecidableEq, Repr

/-- Modelled from the spec: IssueToken encodes the subject ID, the issue
time and the expiry (issue time plus ttl) and signs them with the
server-held secret. -/
def IssueToken (secret : Nat) (sub iat ttl : Int) : Token :=
  let c : TokenClaims := { sub := sub, exp := iat + ttl, iat := iat }
  { claims := c, sig := signClaims secret c }

/-- Modelled from the spec: the distinguished validation failures. -/
inductive AuthErr where
  | expired : AuthErr
  | malformed : AuthErr
  | badSignature : AuthErr
deriving DecidableEq, Repr

/-- Modelled from the spec: ValidateToken verifies the signature and checks
expiry against the current time, and returns the claims on success. -/
def ValidateToken (secret : Nat) (now : Int) (t : Token) : Except AuthErr TokenClaims :=
  if t.sig ≠ signClaims secret t.claims then .error .badSignature
  else if t.claims.exp ≤ now then .error .expired
  else .ok t.claims

/-- Modelled from the spec: the wire form of a token, a dot-separated
rendering of the claims and the signature (the shape of a compact JWT). -/
def serializeToken (t : Token) : List Char :=
  sprintfNoFrac t.claims.sub ++ '.' :: sprintfNoFrac t.claims.exp
    ++ '.' :: sprintfNoFrac t.claims.iat ++ '.' :: natDec t.sig

/-- Modelled from the spec: recover a token from its wire form. -/
def deserializeToken (cs : List Char) : Option Token :=
  match splitOnChar '.' cs with
  | [a, b, c, d] =>
    match parseInt64 a, parseInt64 b, parseInt64 c, parseNatDec d with
    | some sub, some e, some i, some sig =>
      some { claims := { sub := sub, exp := e, iat := i }, sig := sig }
    | _, _, _, _ => none
  | _ => none

/-- Modelled from the spec: ValidateToken on the wire form — an undecodable
string is a malformed token. -/
def validateTokenString (secret : Nat) (now : Int) (cs : List Char) :
    Except AuthErr TokenClaims :=
  match deserializeToken cs with
  | none => .error .malformed
  | some t => ValidateToken secret now t

/- ## The identity cache (application.getUser) -/

/-- An observable call to a backend during identity resolution: a cache
read, a cache write, or a system-of-record fetch. -/
inductive CallEvent where
  | cacheGet : Int → CallEvent
  | cacheSet : Int → CallEvent
  | storeGetByID : Int → CallEvent
deriving DecidableEq, Repr

/-- The backends getUser talks to, as state-passing functions over an
environment state σ: app.cacheStorage.Users.Get / .Set and
app.store.Users.GetByID.  A cache Get returning ok none is a miss (the Go
code reports a miss as a nil user with a nil error). -/
structure Backends (σ : Type) where
  cacheGet : σ → Int → Except Err (Option User) × σ
  cacheSet : σ → User → Except Err Unit × σ
  storeGetByID : σ → Int → Except Err User × σ

/-- application.getUser: with caching disabled, read the system of record
directly; with caching enabled, query the cache (propagating a cache error),
return a hit, and on a miss fetch from the system of record (propagating its
error, including not-found) and write the fetched record to the cache
(propagating a write error).  The returned list records every backend call
in order. -/
def getUser {σ : Type} (redisEnabled : Bool) (b : Backends σ) (s : σ) (userID : Int) :
    Except Err User × σ × List CallEvent :=
  if !redisEnabled then
    match b.storeGetByID s userID with
    | (r, s1) => (r, s1, [.storeGetByID userID])
  else
    match b.cacheGet s userID with
    | (.error e, s1) => (.error e, s1, [.cacheGet userID])
    | (.ok (some user), s1) => (.ok user, s1, [.cacheGet userID])
    | (.ok none, s1) =>
      match b.storeGetByID s1 userID with
      | (.error e, s2) => (.error e, s2, [.cacheGet userID, .storeGetByID userID])
      | (.ok user, s2) =>
        match b.cacheSet s2 user with
        | (.error e, s3) =>
          (.error e, s3, [.cacheGet userID, .storeGetByID userID, .cacheSet user.id])
        | (.ok _, s3) =>
          (.ok user, s3, [.cacheGet userID, .storeGetByID userID, .cacheSet user.id])

/-- A sequence of getUser calls, threading the environment state and
concatenating the traces. -/
def getUserCalls {σ : Type} (redisEnabled : Bool) (b : Backends σ) :
    σ → List Int → σ × List CallEvent
  | s, [] => (s, [])
  | s, id :: rest =>
    let r := getUser redisEnabled b s id
    let rec1 := getUserCalls redisEnabled b r.2.1 rest
    (rec1.1, r.2.2 ++ rec1.2)

/- ## The bearer-token middleware (application.AuthTokenMiddleware) -/

/-- The reason carried by an unauthorizedErrorResponse of the middleware. -/
inductive AuthReason where
  | missingHeader : AuthReason
  | malformedHeader : AuthReason
  | invalidToken : AuthErr → AuthReason
  | badSubject : AuthReason
  | resolveFailed : Err → AuthReason
deriving DecidableEq, Repr

/-- Outcome of the middleware for one request: an unauthorized response, an
internal-server-error response (available to the application but, as proved
below, never produced by this middleware), or proceeding to the next handler
with the resolved user attached to the request context. -/
inductive AuthResult where
  | unauthorized : AuthReason → AuthResult
  | internalError : String → AuthResult
  | proceed : User → AuthResult
deriving DecidableEq, Repr

/-- Whether an AuthResult is an internal-server-error response. -/
def AuthResult.isInternal : AuthResult → Bool
  | .internalError _ => true
  | _ => false

/-- Whether an AuthResult is an unauthorized response. -/
def AuthResult.isUnauthorized : AuthResult → Bool
  | .unauthorized _ => true
  | _ => false

/-- The claim-extraction step of the middleware:
strconv.ParseInt(fmt.Sprintf("%.f", claims["sub"]), 10, 64). -/
def extractSubjectID (claims : TokenClaims) : Option Int :=
  parseInt64 (sprintfNoFrac claims.sub)

/-- application.AuthTokenMiddleware: require an Authorization header,
split it on spaces into exactly two parts with the first part the literal
Bearer, validate the token (app.authenticator.ValidateToken is passed in as
the function validate), parse the sub claim as a 64-bit integer, resolve the
user through app.getUser, and attach the user to the context.  EVERY failure
— including a getUser error — is answered with unauthorizedErrorResponse. -/
def AuthTokenMiddleware {σ : Type} (validate : List Char → Except AuthErr TokenClaims)
    (redisEnabled : Bool) (b : Backends σ) (s : σ) (authHeader : Option (List Char)) :
    AuthResult × σ × List CallEvent :=
  match authHeader with
  | none => (.unauthorized .missingHeader, s, [])
  | some h =>
    match splitOnChar ' ' h with
    | [p0, p1] =>
      if p0 = "Bearer".toList then
        match validate p1 with
        | .error e => (.unauthorized (.invalidToken e), s, [])
        | .ok claims =>
          match extractSubjectID claims with
          | none => (.unauthorized .badSubject, s, [])
          | some userID =>
            match getUser redisEnabled b s userID with
            | (.error e, s1, tr) => (.unauthorized (.resolveFailed e), s1, tr)
            | (.ok user, s1, tr) => (.proceed user, s1, tr)
      else (.unauthorized .malformedHeader, s, [])
    | _ => (.unauthorized .malformedHeader, s, [])

/- ## The rate-limiter middleware (application.RateLimiterMiddleware) -/

/-- Modelled from the spec: the rendering of the retry-after duration hint
(retryAfter.String() in the Go code); an injective decimal rendering in
nanoseconds stands in for the exact Go formatting. -/
def durationString (d : Int) : List Char := sprintfNoFrac d ++ "ns".toList

/-- Outcome of the rate-limiter middleware. -/
inductive RLResult where
  | rateLimited : List Char → RLResult
  | proceed : RLResult
deriving DecidableEq, Repr

/-- application.RateLimiterMiddleware: when the feature flag is enabled,
consult the admission controller (app.rateLimiter.Allow, passed in as the
function allowF) and, if it denies, answer rateLimitExceedResponse with the
rendered retry-after hint; otherwise fall through to the next handler.  The
Bool of the result records whether the controller was consulted. -/
def RateLimiterMiddleware (enabled : Bool) (allowF : String → Bool × Int)
    (remoteAddr : String) : RLResult × Bool :=
  if enabled then
    match allowF remoteAddr with
    | (allow, retryAfter) =>
      if !allow then (.rateLimited (durationString retryAfter), true)
      else (.proceed, true)
  else (.proceed, false)

/- ## The ownership-or-role gate -/

/-- store.Post (the Comments and User join fields are omitted: no verified
property concerns them). -/
structure Post where
  id : Int
  content : String
  title : String
  userID : Int
  tags : List String
  createdAt : String
  updatedAt : String
  version : Int
deriving DecidableEq, Repr

/-- application.checkRolePrecedence: look up the required role by name in
the system of record (app.store.Roles.GetByName, passed in as the function
getRoleByName), propagating a lookup failure, and compare the caller level
against the required level. -/
def checkRolePrecedence (getRoleByName : String → Except Err Role)
    (user : User) (requiredRole : String) : Except Err Bool :=
  match getRoleByName requiredRole with
  | .error e => .error e
  | .ok role => .ok (user.role.level ≥ role.level)

/-- Outcome of the ownership-or-role gate. -/
inductive GateResult where
  | proceed : GateResult
  | forbidden : GateResult
  | internalError : Err → GateResult
deriving DecidableEq, Repr

/-- application.checkPostOwnership: the owner passes immediately (the role
lookup is not performed); otherwise the role-precedence check decides, a
lookup failure being answered with internalServerError and an insufficient
level with forbiddenResponse. -/
def checkPostOwnership (getRoleByName : String → Except Err Role)
    (requiredRole : String) (user : User) (post : Post) : GateResult :=
  if post.userID == user.id then .proceed
  else
    match checkRolePrecedence getRoleByName user requiredRole with
    | .error e => .internalError e
    | .ok allowed => if !allowed then .forbidden else .proceed

/- ## The user store (store.UserStore) -/

/-- A row of the users table: the persisted representation of an identity.
Only the bcrypt hash of the password is a column; the raw text of a
password value never reaches the table. -/
structure UserRow where
  id : Int
  username : String
  email : String
  passwordHash : Option BcryptHash
  isActive : Bool
  roleID : Int
deriving DecidableEq, Repr

/-- The system of record: the users and roles tables plus the next value of
the id sequence (PostgreSQL sequences never reuse ids). -/
structure DB where
  users : List UserRow
  roles : List Role
  nextId : Int
deriving DecidableEq, Repr

/-- store.UserStore.GetByID: one row of

  SELECT users.id, username, email, password, created_at, roles.star
  FROM users JOIN roles ON (users.role_id = roles.id)
  WHERE users.id = dollar1 AND is_active = true

scanned into a User; no row is sql.ErrNoRows, answered as
ErrRecordNotFound.  The query does not select is_active, so the scanned
User keeps the Go zero value false there; the scanned password has only the
hash column, its raw text stays nil. -/
def UserStore.GetByID (db : DB) (userID : Int) : Except Err User :=
  match db.users.find? (fun r => r.id == userID && r.isActive) with
  | none => .error .errRecordNotFound
  | some row =>
    match db.roles.find? (fun ro => ro.id == row.roleID) with
    | none => .error .errRecordNotFound
    | some role =>
      .ok { id := row.id, username := row.username, email := row.email,
            password := { text := none, hash := row.passwordHash },
            isActive := false, roleID := row.roleID, role := role }

/-- store.UserStore.Create: INSERT INTO users (username, password, email,
role_id) with the role id subselected by name (the name defaulting to user
when empty), RETURNING id.  Only user.Password.hash is passed for the
password column.  Duplicate email or username keys are reported as the
dedicated errors; a role name that resolves to no row makes the insert fail.
New rows await activation, so is_active starts false. -/
def UserStore.Create (db : DB) (user : User) : Except Err (DB × Int) :=
  let roleName := if user.role.name = "" then "user" else user.role.name
  match db.roles.find? (fun ro => ro.name == roleName) with
  | none => .error (.other "null value in column role_id")
  | some role =>
    if db.users.any (fun r => r.email == user.email) then .error .duplicateEmail
    else if db.users.any (fun r => r.username == user.username) then
      .error .duplicateUsername
    else
      let row : UserRow :=
        { id := db.nextId, username := user.username, email := user.email,
          passwordHash := user.password.hash, isActive := false,
          roleID := role.id }
      .ok ({ db with users := db.users ++ [row], nextId := db.nextId + 1 },
           db.nextId)

/-- The effect of store.UserStore.Activate on the users table: the user the
invitation token resolves to is updated with is_active = true (the
invitation bookkeeping itself touches only the user_invitations table). -/
def UserStore.activateRow (db : DB) (userID : Int) : DB :=
  { db with
    users := db.users.map fun r =>
      if r.id == userID then { r with isActive := true } else r }

/-- The effect of store.UserStore.Delete on the users table:
DELETE FROM users WHERE id = dollar1. -/
def UserStore.deleteRow (db : DB) (userID : Int) : DB :=
  { db with users := db.users.filter (fun r => !(r.id == userID)) }

/- ## The concrete environment: Redis cache plus system of record -/

/-- The full mutable environment of the pipeline: the external cache
(modelled from the spec as a key-value table of identity snapshots keyed by
identity ID; expiry is not modelled, a stale entry simply persists) and the
system of record. -/
structure SysState where
  cache : List (Int × User)
  db : DB
deriving DecidableEq, Repr

/-- The concrete backends over SysState: cache.UserStore.Get and .Set
(modelled from the spec: get finds the snapshot under the key and reports a
missing key as ok none; set stores the snapshot under user.ID) and
store.UserStore.GetByID. -/
def sysBackends : Backends SysState where
  cacheGet := fun s id => (.ok ((s.cache.find? (fun p => p.1 == id)).map Prod.snd), s)
  cacheSet := fun s u =>
    (.ok (), { s with cache := (u.id, u) :: s.cache.filter (fun p => !(p.1 == u.id)) })
  storeGetByID := fun s id => (UserStore.GetByID s.db id, s)

/- ## The create-post handler (application.createPostHandler) -/

/-- The JSON payload of the create-post route. -/
structure CreatePostPayload where
  title : String
  content : String
  tags : List String
deriving DecidableEq, Repr

/-- Validate.Struct on CreatePostPayload: title is required with at most 100
characters, content is required with at most 1000 characters. -/
def validCreatePostPayload (p : CreatePostPayload) : Bool :=
  p.title ≠ "" && p.title.length ≤ 100 && p.content ≠ "" && p.content.length ≤ 1000

/-- store.PostStore.Create: INSERT INTO posts (content, title, user_id,
tags) RETURNING id, created_at, updated_at — the database assigns the id
from its sequence and fills the timestamps (modelled as a fixed string). -/
def PostStore.Create (posts : List Post) (nextPostId : Int) (post : Post) :
    List Post × Int × Post :=
  let post1 := { post with id := nextPostId, createdAt := "now", updatedAt := "now" }
  (posts ++ [post1], nextPostId + 1, post1)

/-- Outcome of the create-post handler. -/
inductive CreatePostResult where
  | badRequest : CreatePostResult
  | internalError : String → CreatePostResult
  | created : Post → List Post → Int → CreatePostResult
deriving DecidableEq, Repr

/-- application.createPostHandler: after decoding (already done here) and
validating the payload, build the post with UserID hardcoded to 2 — the
authenticated user attached to the request context (ctxUser) is never
consulted — store it and answer 201 with the stored post.  The JSON-decode
failure branch is before the modelled inputs and the jsonResponse failure
branch cannot fail in the model. -/
def createPostHandler (ctxUser : User) (payload : CreatePostPayload)
    (posts : List Post) (nextPostId : Int) : CreatePostResult :=
  if !validCreatePostPayload payload then .badRequest
  else
    let post : Post :=
      { id := 0, content := payload.content, title := payload.title,
        userID := 2, tags := payload.tags, createdAt := "", updatedAt := "",
        version := 0 }
    match PostStore.Create posts nextPostId post with
    | (posts1, nid, post1) => .created post1 posts1 nid

/- ## Operation semantics over the environment
The operations of the repository that touch the users table or the identity
cache, used to characterise the reachable environment states. -/

/-- An operation: registering a user (store.UserStore.Create), activating a
user (store.UserStore.Activate), deleting a user (store.UserStore.Delete),
or resolving an identity through the pipeline with caching enabled
(application.getUser). -/
inductive Op where
  | create : User → Op
  | activate : Int → Op
  | deleteUser : Int → Op
  | resolve : Int → Op
deriving Repr

/-- One operation applied to the environment (results are discarded; a
failing create leaves the state unchanged, as the transaction rolls back). -/
def stepOp (s : SysState) : Op → SysState
  | .create u =>
    match UserStore.Create s.db u with
    | .ok (db1, _) => { s with db := db1 }
    | .error _ => s
  | .activate uid => { s with db := UserStore.activateRow s.db uid }
  | .deleteUser uid => { s with db := UserStore.deleteRow s.db uid }
  | .resolve uid => (getUser true sysBackends s uid).2.1

/-- A sequence of operations applied in order. -/
def runOps (s : SysState) (ops : List Op) : SysState :=
  ops.foldl stepOp s

/-- The environment invariant: every cached snapshot belongs to an id whose
users-table row (if any) is active; all row ids and cache keys are below the
id sequence; and row ids are pairwise distinct. -/
def EnvInv (s : SysState) : Prop :=
  (∀ p ∈ s.cache, ∀ row ∈ s.db.users, row.id = p.1 → row.isActive = true)
  ∧ (∀ row ∈ s.db.users, row.id < s.db.nextId)
  ∧ (∀ p ∈ s.cache, p.1 < s.db.nextId)
  ∧ s.db.users.Pairwise (fun a b => a.id ≠ b.id)

/-- The environment invariant is checkable on concrete states. -/
instance (s : SysState) : Decidable (EnvInv s) := by
  unfold EnvInv
  infer_instance

/- ## Derived instances and concrete fixtures -/

deriving instance DecidableEq for Except

/-- A role of level one, as seeded for ordinary users. -/
def roleUser : Role := { id := 10, name := "user", level := 1, description := "ordinary" }

/-- A role of level two, as seeded for moderators. -/
def roleMod : Role := { id := 11, name := "moderator", level := 2, description := "mod" }

/-- A never-set password value (both fields nil). -/
def pwNone : password := { text := none, hash := none }

/-- A concrete level-one caller with identity 1. -/
def alice : User :=
  { id := 1, username := "alice", email := "alice@example.com", password := pwNone,
    isActive := true, roleID := 10, role := roleUser }

/-- A concrete level-two caller with identity 2. -/
def bob : User :=
  { id := 2, username := "bob", email := "bob@example.com", password := pwNone,
    isActive := true, roleID := 11, role := roleMod }

/-- A concrete post owned by identity 1. -/
def post1 : Post :=
  { id := 100, content := "c", title := "t", userID := 1, tags := [],
    createdAt := "", updatedAt := "", version := 0 }

/-- A concrete role lookup: only the moderator role resolves; any other name
fails with an infrastructure error. -/
def getRoleByNameT (name : String) : Except Err Role :=
  if name = "moderator" then .ok roleMod else .error (.other "pq: connection refused")

/-- A concrete identity snapshot sitting in the cache under key 2. -/
def cachedUser : User :=
  { id := 2, username := "cached", email := "cached@example.com", password := pwNone,
    isActive := false, roleID := 10, role := roleUser }

/-- A concrete identity as fetched from the system of record. -/
def storedUser (id : Int) : User :=
  { id := id, username := "stored", email := "stored@example.com", password := pwNone,
    isActive := false, roleID := 10, role := roleUser }

/-- Stateless test backends exercising every branch of getUser: the cache
errors on id 1, hits on id 2 and misses otherwise; the store reports id 3
as not found and returns the record otherwise; the cache write fails for
id 5 and succeeds otherwise. -/
def tbBackends : Backends Unit where
  cacheGet := fun s id =>
    (if id = 1 then .error (.other "cache down")
     else if id = 2 then .ok (some cachedUser) else .ok none, s)
  cacheSet := fun s u =>
    ((if u.id = 5 then .error (.other "cache write failed") else .ok ()), s)
  storeGetByID := fun s id =>
    ((if id = 3 then .error .errRecordNotFound else .ok (storedUser id)), s)

/-- Backends whose cache is down: every cache read fails with a connection
error. -/
def redisDownBackends : Backends Unit where
  cacheGet := fun s _ => (.error (.other "connection refused"), s)
  cacheSet := fun s _ => (.ok (), s)
  storeGetByID := fun s _ => (.error (.other "store not reached"), s)

/-- A concrete create-post payload. -/
def payload0 : CreatePostPayload := { title := "hello", content := "world", tags := [] }

/-- The post the create-post handler stores for payload0 (owner hardcoded
to 2 by the handler, id 1 assigned by the store). -/
def post0 : Post :=
  { id := 1, content := "world", title := "hello", userID := 2, tags := [],
    createdAt := "now", updatedAt := "now", version := 0 }

/-- A users table holding a single deactivated user with id 7. -/
def db9 : DB :=
  { users := [{ id := 7, username := "dora", email := "dora@example.com",
                passwordHash := none, isActive := false, roleID := 10 }],
    roles := [roleUser], nextId := 8 }

/-- The environment around db9, with an empty cache. -/
def s9 : SysState := { cache := [], db := db9 }

/- ## Decimal round-trip lemmas -/

theorem digitChar_toNat {d : Nat} (hd : d < 10) : (digitChar d).toNat = 48 + d := by
  interval_cases d <;> decide

theorem isDigitChar_digitChar {d : Nat} (hd : d < 10) : isDigitChar (digitChar d) = true := by
  interval_cases d <;> decide

theorem digitVal_digitChar {d : Nat} (hd : d < 10) : digitVal (digitChar d) = d := by
  interval_cases d <;> decide

theorem natDigitsRev_lt_base :
    ∀ fuel n, ∀ d ∈ natDigitsRev fuel n, d < 10 := by
  intro fuel
  induction fuel with
  | zero => intro n d hd; simp [natDigitsRev] at hd
  | succ fuel ih =>
    intro n d hd
    by_cases h0 : n = 0
    · simp [natDigitsRev, h0] at hd
    · rw [natDigitsRev, if_neg h0] at hd
      rcases List.mem_cons.mp hd with h | h
      · subst h; exact Nat.mod_lt n (by norm_num)
      · exact ih (n / 10) d h

theorem ofDigits_natDigitsRev :
    ∀ fuel n, n ≤ fuel → Nat.ofDigits 10 (natDigitsRev fuel n) = n := by
  intro fuel
  induction fuel with
  | zero => intro n hn; interval_cases n; simp [natDigitsRev]
  | succ fuel ih =>
    intro n hn
    by_cases h0 : n = 0
    · simp [natDigitsRev, h0]
    · rw [natDigitsRev, if_neg h0, Nat.ofDigits_cons,
        ih (n / 10) (by omega)]
      omega

theorem natDigitsRev_ne_nil (fuel n : Nat) (h0 : n ≠ 0) (hf : 1 ≤ fuel) :
    natDigitsRev fuel n ≠ [] := by
  cases fuel with
  | zero => omega
  | succ fuel => rw [natDigitsRev, if_neg h0]; simp

theorem foldl_digits_reverse (L : List Nat) (hL : ∀ d ∈ L, d < 10) (a : Nat) :
    ((L.reverse.map digitChar).foldl (fun x c => x * 10 + digitVal c) a)
      = a * 10 ^ L.length + Nat.ofDigits 10 L := by
  induction L generalizing a with
  | nil => simp
  | cons d L ih =>
    have hd : d < 10 := hL d (List.mem_cons_self d L)
    have hL' : ∀ x ∈ L, x < 10 := fun x hx => hL x (List.mem_cons_of_mem d hx)
    simp only [List.reverse_cons, List.map_append, List.foldl_append, List.map_cons,
      List.map_nil, List.foldl_cons, List.foldl_nil, ih hL', digitVal_digitChar hd,
      Nat.ofDigits_cons, List.length_cons]
    ring

theorem parseNatDec_natDec (n : Nat) : parseNatDec (natDec n) = some n := by
  by_cases h0 : n = 0
  · subst h0; decide
  · have hne : natDigitsRev n n ≠ [] := natDigitsRev_ne_nil n n h0 (by omega)
    have hlt : ∀ d ∈ natDigitsRev n n, d < 10 := natDigitsRev_lt_base n n
    have hall : ∀ c ∈ digitChars n, isDigitChar c = true := by
      intro c hc
      rcases List.mem_map.mp hc with ⟨d, hd, rfl⟩
      exact isDigitChar_digitChar (hlt d (List.mem_reverse.mp hd))
    have hnonempty : (digitChars n).isEmpty = false := by
      unfold digitChars
      cases hrev : (natDigitsRev n n).reverse with
      | nil => exact absurd (List.reverse_eq_nil_iff.mp hrev) hne
      | cons c cs => simp
    unfold natDec
    rw [if_neg h0]
    unfold parseNatDec
    rw [hnonempty, if_neg (by simp), if_pos (List.all_eq_true.mpr hall)]
    unfold digitChars
    rw [foldl_digits_reverse (natDigitsRev n n) hlt 0]
    simp [ofDigits_natDigitsRev n n (Nat.le_refl n)]

theorem natDec_head_digit (n : Nat) :
    ∀ c ∈ natDec n, isDigitChar c = true := by
  intro c hc
  unfold natDec at hc
  by_cases h0 : n = 0
  · subst h0; simp at hc; subst hc; decide
  · rw [if_neg h0] at hc
    rcases List.mem_map.mp hc with ⟨d, hd, rfl⟩
    exact isDigitChar_digitChar (natDigitsRev_lt_base n n d (List.mem_reverse.mp hd))

theorem natDec_ne_nil (n : Nat) : natDec n ≠ [] := by
  unfold natDec
  by_cases h0 : n = 0
  · rw [if_pos h0]; simp
  · rw [if_neg h0]
    unfold digitChars
    have hne : natDigitsRev n n ≠ [] := natDigitsRev_ne_nil n n h0 (by omega)
    intro hmap
    rcases List.map_eq_nil_iff.mp hmap with hrev
    exact hne (List.reverse_eq_nil_iff.mp hrev)

/-- The round trip of strconv.ParseInt after fmt.Sprintf %.f on any value in
the 64-bit integer range. -/
theorem parseInt64_sprintfNoFrac (v : Int) (hlo : -(2 ^ 63) ≤ v) (hhi : v < 2 ^ 63) :
    parseInt64 (sprintfNoFrac v) = some v := by
  by_cases hneg : v < 0
  · unfold sprintfNoFrac
    rw [if_pos hneg]
    have hred : parseInt64 ('-' :: natDec v.natAbs) =
        (parseNatDec (natDec v.natAbs)).bind fun n =>
          if (n : Int) ≤ 2 ^ 63 then some (-(n : Int)) else none := rfl
    have habs : (v.natAbs : Int) ≤ 2 ^ 63 := by omega
    rw [hred, parseNatDec_natDec, Option.some_bind, if_pos habs]
    exact congrArg some (by omega)
  · unfold sprintfNoFrac
    rw [if_neg hneg]
    cases hnd : natDec v.natAbs with
    | nil => exact absurd hnd (natDec_ne_nil v.natAbs)
    | cons c rest =>
      have hcdig : isDigitChar c = true := by
        apply natDec_head_digit v.natAbs
        rw [hnd]; exact List.mem_cons_self c rest
      have hcm : c ≠ '-' := by
        intro h; subst h; simp [isDigitChar] at hcdig
      have hcp : c ≠ '+' := by
        intro h; subst h; simp [isDigitChar] at hcdig
      have hstep : parseInt64 (c :: rest) =
          if c = '-' then
            (parseNatDec rest).bind fun n =>
              if (n : Int) ≤ 2 ^ 63 then some (-(n : Int)) else none
          else if c = '+' then
            (parseNatDec rest).bind fun n =>
              if (n : Int) < 2 ^ 63 then some ((n : Int)) else none
          else
            (parseNatDec (c :: rest)).bind fun n =>
              if (n : Int) < 2 ^ 63 then some ((n : Int)) else none := rfl
      have habs : (v.natAbs : Int) < 2 ^ 63 := by omega
      rw [hstep, if_neg hcm, if_neg hcp, ← hnd, parseNatDec_natDec,
        Option.some_bind, if_pos habs]
      exact congrArg some (by omega)

/- ## Header-splitting lemmas -/

theorem splitOnChar_no_sep (sep : Char) (ys : List Char) (h : sep ∉ ys) :
    splitOnChar sep ys = [ys] := by
  induction ys with
  | nil => rfl
  | cons c rest ih =>
    have hc : c ≠ sep := fun hh => h (hh ▸ List.mem_cons_self c rest)
    have hrest : sep ∉ rest := fun hh => h (List.mem_cons_of_mem c hh)
    rw [splitOnChar, if_neg hc, ih hrest]

theorem splitOnChar_append (sep : Char) (xs ys : List Char) (hxs : sep ∉ xs) :
    splitOnChar sep (xs ++ sep :: ys) = xs :: splitOnChar sep ys := by
  induction xs with
  | nil => simp [splitOnChar]
  | cons c rest ih =>
    have hc : c ≠ sep := fun hh => hxs (hh ▸ List.mem_cons_self c rest)
    have hrest : sep ∉ rest := fun hh => hxs (List.mem_cons_of_mem c hh)
    rw [List.cons_append, splitOnChar, if_neg hc, ih hrest]

/-- Helper: a well-formed bearer header whose token validates and whose
subject parses is answered by the middleware with exactly the outcome of
getUser: an unauthorizedErrorResponse on a resolution error, proceeding with
the user otherwise. -/
theorem authTokenMiddleware_resolution {σ : Type} (b : Backends σ) (s : σ)
    (validate : List Char → Except AuthErr TokenClaims) (t : List Char)
    (claims : TokenClaims) (uid : Int)
    (hsp : ' ' ∉ t) (hv : validate t = .ok claims)
    (hx : extractSubjectID claims = some uid) :
    AuthTokenMiddleware validate true b s (some ("Bearer".toList ++ ' ' :: t)) =
      (match getUser true b s uid with
       | (.error e, s1, tr) => (.unauthorized (.resolveFailed e), s1, tr)
       | (.ok user, s1, tr) => (.proceed user, s1, tr)) := by
  have hsplit : splitOnChar ' ' ("Bearer".toList ++ ' ' :: t) =
      ["Bearer".toList, t] := by
    rw [splitOnChar_append ' ' _ t (by decide), splitOnChar_no_sep ' ' t hsp]
  simp only [AuthTokenMiddleware, hsplit]
  rw [if_pos trivial, hv]
  simp only [hx]

/- ## Claim theorems -/

/-- Claim C3: for every authenticated caller and every post, the
ownership-or-role gate grants access to the owner regardless of role level;
a non-owner is granted access exactly when the caller level is at least the
required role level and is otherwise rejected as forbidden; and a failing
role lookup is surfaced as an internal error, not as forbidden. -/
theorem C3_ownership_or_role_gate (grbn : String → Except Err Role)
    (requiredRole : String) (user : User) (post : Post) :
    (post.userID = user.id → checkPostOwnership grbn requiredRole user post = .proceed) ∧
    (post.userID ≠ user.id → ∀ role, grbn requiredRole = .ok role →
      checkPostOwnership grbn requiredRole user post =
        (if user.role.level ≥ role.level then .proceed else .forbidden)) ∧
    (post.userID ≠ user.id → ∀ e, grbn requiredRole = .error e →
      checkPostOwnership grbn requiredRole user post = .internalError e) := by
  refine ⟨?_, ?_, ?_⟩
  · intro h
    simp [checkPostOwnership, h]
  · intro h role hr
    have hbeq : (post.userID == user.id) = false := beq_eq_false_iff_ne.mpr h
    by_cases hl : user.role.level ≥ role.level <;>
      simp [checkPostOwnership, checkRolePrecedence, hbeq, hr, hl]
  · intro h e he
    have hbeq : (post.userID == user.id) = false := beq_eq_false_iff_ne.mpr h
    simp [checkPostOwnership, checkRolePrecedence, hbeq, he]

/-- Witness for C3 at concrete inputs: the owner passes without a role, a
level-two non-owner passes the moderator requirement, and a failing role
lookup for a non-owner surfaces the lookup error. -/
theorem C3_ownership_or_role_gate_witness :
    checkPostOwnership getRoleByNameT "moderator" alice post1 = .proceed ∧
    checkPostOwnership getRoleByNameT "moderator" bob post1 = .proceed ∧
    checkPostOwnership getRoleByNameT "missing" alice { post1 with userID := 5 } =
      .internalError (.other "pq: connection refused") := by
  refine ⟨?_, ?_, ?_⟩
  · exact (C3_ownership_or_role_gate getRoleByNameT "moderator" alice post1).1 (by decide)
  · have h := (C3_ownership_or_role_gate getRoleByNameT "moderator" bob post1).2.1
      (by decide) roleMod (by decide)
    simpa using h
  · exact (C3_ownership_or_role_gate getRoleByNameT "missing" alice
      { post1 with userID := 5 }).2.2 (by decide) (.other "pq: connection refused") (by decide)

/-- Claim C5: verifying the secret used to produce a stored representation
succeeds, and verifying any different secret against it fails. -/
theorem C5_secret_verification_roundtrip (p : password) (salt : Nat) (s s1 : String)
    (hne : s1 ≠ s) :
    (password.Set p salt s).Compare s = true ∧
    (password.Set p salt s).Compare s1 = false := by
  constructor
  · simp [password.Set, password.Compare, bcryptCompareHashAndPassword,
      bcryptGenerateFromPassword]
  · simp only [password.Set, password.Compare, bcryptCompareHashAndPassword,
      bcryptGenerateFromPassword]
    exact beq_eq_false_iff_ne.mpr fun hh => hne hh.symm

/-- Witness for C5 at a concrete secret and a concrete different attempt. -/
theorem C5_secret_verification_roundtrip_witness :
    (password.Set pwNone 3 "correct horse").Compare "correct horse" = true ∧
    (password.Set pwNone 3 "correct horse").Compare "Tr0ub4dor" = false :=
  C5_secret_verification_roundtrip pwNone 3 "correct horse" "Tr0ub4dor" (by decide)

/-- Counterexample to claim C6: the claim says the stored password
representation never retains the raw secret, but after setting the secret
the representation's text field holds exactly the raw secret. -/
theorem C6_raw_secret_retained_counterexample :
    (NewUser "bob" "bob@example.com" "hunter2" 5).password.text = some "hunter2" := by
  decide

/-- Claim C6 as amended: after setting a secret the representation holds the
one-way hash AND additionally retains the raw secret in its unexported text
field; only the hash is persisted — UserStore.Create is insensitive to the
text field, so the raw secret never reaches the users table (whose rows
have no raw-text column). -/
theorem C6_password_hash_and_text (p : password) (salt : Nat) (s : String)
    (db : DB) (u : User) (t : Option String) :
    (password.Set p salt s).hash =
      some (bcryptGenerateFromPassword salt bcryptDefaultCost s) ∧
    (password.Set p salt s).text = some s ∧
    UserStore.Create db { u with password := { u.password with text := t } } =
      UserStore.Create db u := by
  refine ⟨rfl, rfl, rfl⟩

/-- Claim C8: with the feature flag off the admission controller is never
consulted and the request proceeds; with the flag on and the controller
denying, the request is answered with the rate-limit response carrying the
rendered retry-after hint and does not proceed. -/
theorem C8_rate_limiter_gate (allowF : String → Bool × Int) (addr : String) :
    RateLimiterMiddleware false allowF addr = (.proceed, false) ∧
    (∀ d, allowF addr = (false, d) →
      RateLimiterMiddleware true allowF addr = (.rateLimited (durationString d), true)) := by
  constructor
  · rfl
  · intro d h
    simp [RateLimiterMiddleware, h]

/-- Witness for C8 at a concrete controller that denies with a 42ns hint. -/
theorem C8_rate_limiter_gate_witness :
    RateLimiterMiddleware false (fun _ => (false, 42)) "10.0.0.9" = (.proceed, false) ∧
    RateLimiterMiddleware true (fun _ => (false, 42)) "10.0.0.9" =
      (.rateLimited (durationString 42), true) :=
  ⟨(C8_rate_limiter_gate (fun _ => (false, 42)) "10.0.0.9").1,
   (C8_rate_limiter_gate (fun _ => (false, 42)) "10.0.0.9").2 42 rfl⟩

/-- Claim C1: with caching enabled, getUser follows the cache-aside
algorithm — a cache error is returned as a failure (not treated as a miss);
a hit is returned without a system-of-record fetch; on a miss a not-found
fetch is returned as the not-found error with no cache write; a successful
fetch is written to the cache, with a write error propagated. -/
theorem C1_cache_aside_algorithm {σ : Type} (b : Backends σ) (s : σ) (id : Int) :
    (∀ e s1, b.cacheGet s id = (.error e, s1) →
      getUser true b s id = (.error e, s1, [CallEvent.cacheGet id])) ∧
    (∀ u s1, b.cacheGet s id = (.ok (some u), s1) →
      getUser true b s id = (.ok u, s1, [CallEvent.cacheGet id]) ∧
      CallEvent.storeGetByID id ∉ (getUser true b s id).2.2) ∧
    (∀ s1 s2, b.cacheGet s id = (.ok none, s1) →
      b.storeGetByID s1 id = (.error .errRecordNotFound, s2) →
      getUser true b s id =
        (.error .errRecordNotFound, s2, [CallEvent.cacheGet id, CallEvent.storeGetByID id]) ∧
      (∀ j, CallEvent.cacheSet j ∉ (getUser true b s id).2.2)) ∧
    (∀ u s1 s2, b.cacheGet s id = (.ok none, s1) → b.storeGetByID s1 id = (.ok u, s2) →
      (∀ e s3, b.cacheSet s2 u = (.error e, s3) →
        getUser true b s id = (.error e, s3,
          [CallEvent.cacheGet id, CallEvent.storeGetByID id, CallEvent.cacheSet u.id])) ∧
      (∀ s3, b.cacheSet s2 u = (.ok (), s3) →
        getUser true b s id = (.ok u, s3,
          [CallEvent.cacheGet id, CallEvent.storeGetByID id, CallEvent.cacheSet u.id]))) := by
  refine ⟨?_, ?_, ?_, ?_⟩
  · intro e s1 h
    simp [getUser, h]
  · intro u s1 h
    have heq : getUser true b s id = (.ok u, s1, [CallEvent.cacheGet id]) := by
      simp [getUser, h]
    exact ⟨heq, by rw [heq]; simp⟩
  · intro s1 s2 h1 h2
    have heq : getUser true b s id =
        (.error .errRecordNotFound, s2,
          [CallEvent.cacheGet id, CallEvent.storeGetByID id]) := by
      simp [getUser, h1, h2]
    exact ⟨heq, fun j => by rw [heq]; simp⟩
  · intro u s1 s2 h1 h2
    constructor
    · intro e s3 h3
      simp [getUser, h1, h2, h3]
    · intro s3 h3
      simp [getUser, h1, h2, h3]

/-- Witness for C1: the five branches of the algorithm at the concrete test
backends. -/
theorem C1_cache_aside_algorithm_witness :
    getUser true tbBackends () 1 =
      (.error (.other "cache down"), (), [CallEvent.cacheGet 1]) ∧
    getUser true tbBackends () 2 = (.ok cachedUser, (), [CallEvent.cacheGet 2]) ∧
    getUser true tbBackends () 3 = (.error .errRecordNotFound, (),
      [CallEvent.cacheGet 3, CallEvent.storeGetByID 3]) ∧
    getUser true tbBackends () 4 = (.ok (storedUser 4), (),
      [CallEvent.cacheGet 4, CallEvent.storeGetByID 4, CallEvent.cacheSet 4]) ∧
    getUser true tbBackends () 5 = (.error (.other "cache write failed"), (),
      [CallEvent.cacheGet 5, CallEvent.storeGetByID 5, CallEvent.cacheSet 5]) := by
  refine ⟨?_, ?_, ?_, ?_, ?_⟩
  · exact (C1_cache_aside_algorithm tbBackends () 1).1 (.other "cache down") () (by decide)
  · exact ((C1_cache_aside_algorithm tbBackends () 2).2.1 cachedUser () (by decide)).1
  · exact ((C1_cache_aside_algorithm tbBackends () 3).2.2.1 () () (by decide) (by decide)).1
  · exact ((C1_cache_aside_algorithm tbBackends () 4).2.2.2 (storedUser 4) () ()
      (by decide) (by decide)).2 () (by decide)
  · exact ((C1_cache_aside_algorithm tbBackends () 5).2.2.2 (storedUser 5) () ()
      (by decide) (by decide)).1 (.other "cache write failed") () (by decide)

/-- Claim C7: with caching disabled, getUser always reads the system of
record and never invokes the cache backend, for every ID and any number of
calls. -/
theorem C7_cache_disabled_bypass {σ : Type} (b : Backends σ) (s : σ) (ids : List Int) :
    (∀ id, getUser false b s id =
      ((b.storeGetByID s id).1, (b.storeGetByID s id).2, [CallEvent.storeGetByID id])) ∧
    (getUserCalls false b s ids).2 = ids.map CallEvent.storeGetByID ∧
    (∀ j, CallEvent.cacheGet j ∉ (getUserCalls false b s ids).2 ∧
      CallEvent.cacheSet j ∉ (getUserCalls false b s ids).2) := by
  have hsingle : ∀ (s0 : σ) (id : Int), getUser false b s0 id =
      ((b.storeGetByID s0 id).1, (b.storeGetByID s0 id).2, [CallEvent.storeGetByID id]) := by
    intro s0 id
    cases hsg : b.storeGetByID s0 id with
    | mk r s1 => simp [getUser, hsg]
  have hmulti : ∀ (s0 : σ) (ids0 : List Int),
      (getUserCalls false b s0 ids0).2 = ids0.map CallEvent.storeGetByID := by
    intro s0 ids0
    induction ids0 generalizing s0 with
    | nil => rfl
    | cons id rest ih =>
      simp only [getUserCalls, hsingle s0 id, List.map_cons]
      simpa using ih (b.storeGetByID s0 id).2
  refine ⟨hsingle s, hmulti s ids, ?_⟩
  intro j
  constructor
  · rw [hmulti s ids]
    intro hmem
    rcases List.mem_map.mp hmem with ⟨x, _, hx⟩
    exact CallEvent.noConfusion hx
  · rw [hmulti s ids]
    intro hmem
    rcases List.mem_map.mp hmem with ⟨x, _, hx⟩
    exact CallEvent.noConfusion hx

/-- Witness for C7: three resolutions with caching disabled hit only the
store. -/
theorem C7_cache_disabled_bypass_witness :
    getUser false tbBackends () 4 =
      (.ok (storedUser 4), (), [CallEvent.storeGetByID 4]) ∧
    (getUserCalls false tbBackends () [4, 3, 6]).2 =
      [CallEvent.storeGetByID 4, CallEvent.storeGetByID 3, CallEvent.storeGetByID 6] ∧
    CallEvent.cacheGet 4 ∉ (getUserCalls false tbBackends () [4, 3, 6]).2 := by
  have h := C7_cache_disabled_bypass tbBackends () [4, 3, 6]
  refine ⟨?_, ?_, (h.2.2 4).1⟩
  · rw [h.1 4]; decide
  · rw [h.2.1]; decide

/-- Claim C4: for every 64-bit subject ID, a token issued for it that is
validated while unexpired yields the original claims, and the middleware
claim extraction (ParseInt of Sprintf %.f of the sub claim) recovers exactly
the original subject ID. -/
theorem C4_token_subject_roundtrip (secret : Nat) (sub iat ttl now : Int)
    (hlo : -(2 ^ 63) ≤ sub) (hhi : sub < 2 ^ 63) (hnow : now < iat + ttl) :
    ValidateToken secret now (IssueToken secret sub iat ttl) =
      .ok { sub := sub, exp := iat + ttl, iat := iat } ∧
    extractSubjectID { sub := sub, exp := iat + ttl, iat := iat } = some sub := by
  constructor
  · have hexp : ¬ (iat + ttl ≤ now) := by omega
    simp [ValidateToken, IssueToken, hexp]
  · simpa [extractSubjectID] using parseInt64_sprintfNoFrac sub hlo hhi

/-- Witness for C4 at a concrete secret, subject and clock. -/
theorem C4_token_subject_roundtrip_witness :
    ValidateToken 7 1000 (IssueToken 7 1 1000 3600) =
      .ok { sub := 1, exp := 4600, iat := 1000 } ∧
    extractSubjectID { sub := 1, exp := 4600, iat := 1000 } = some 1 :=
  C4_token_subject_roundtrip 7 1 1000 3600 1000 (by decide) (by decide) (by decide)

/-- Counterexample to claim C2: the claim says an infrastructure failure of
identity resolution is surfaced as Internal, but for a request with a valid
unexpired token over a cache that fails with a connection error the
middleware answers an unauthorized response, not an internal-error one. -/
theorem C2_infra_failure_counterexample :
    (AuthTokenMiddleware (validateTokenString 7 1000) true redisDownBackends ()
        (some ("Bearer".toList ++ ' ' :: serializeToken (IssueToken 7 1 1000 3600)))).1
      = .unauthorized (.resolveFailed (.other "connection refused")) ∧
    ((AuthTokenMiddleware (validateTokenString 7 1000) true redisDownBackends ()
        (some ("Bearer".toList ++ ' ' :: serializeToken (IssueToken 7 1 1000 3600)))).1).isInternal
      = false := by
  decide

/-- Claim C2 as amended: every identity-resolution failure — including
infrastructure failures such as a cache error — is surfaced by the pipeline
as Unauthorized (the middleware passes every getUser error to
unauthorizedErrorResponse), not as Internal. -/
theorem C2_infra_failure_unauthorized {σ : Type} (b : Backends σ) (s : σ)
    (validate : List Char → Except AuthErr TokenClaims) (t : List Char)
    (claims : TokenClaims) (uid : Int) (e : Err) (s1 : σ) (tr : List CallEvent)
    (hsp : ' ' ∉ t) (hv : validate t = .ok claims)
    (hx : extractSubjectID claims = some uid)
    (hg : getUser true b s uid = (.error e, s1, tr)) :
    AuthTokenMiddleware validate true b s (some ("Bearer".toList ++ ' ' :: t)) =
      (.unauthorized (.resolveFailed e), s1, tr) := by
  rw [authTokenMiddleware_resolution b s validate t claims uid hsp hv hx, hg]

/-- Witness for the amended C2 at the concrete failing cache. -/
theorem C2_infra_failure_unauthorized_witness :
    AuthTokenMiddleware (validateTokenString 7 1000) true redisDownBackends ()
        (some ("Bearer".toList ++ ' ' :: serializeToken (IssueToken 7 1 1000 3600))) =
      (.unauthorized (.resolveFailed (.other "connection refused")), (),
        [CallEvent.cacheGet 1]) :=
  C2_infra_failure_unauthorized redisDownBackends () (validateTokenString 7 1000)
    (serializeToken (IssueToken 7 1 1000 3600)) { sub := 1, exp := 4600, iat := 1000 } 1
    (.other "connection refused") () [CallEvent.cacheGet 1]
    (by decide) (by decide) (by decide) (by decide)

/-- Claim C10: every post the create-post handler stores carries owner ID 2
regardless of the authenticated identity (the handler never consults the
request context user), so the ownership-or-role gate later judges ownership
of such posts against ID 2 — a caller with ID 2 always passes by ownership,
while the actual creator with a different ID falls through to the role
check and is forbidden when below the required level. -/
theorem C10_create_post_fixed_owner (ctxA ctxB : User) (payload : CreatePostPayload)
    (posts : List Post) (nid : Int) :
    createPostHandler ctxA payload posts nid = createPostHandler ctxB payload posts nid ∧
    (∀ p posts1 nid1, createPostHandler ctxA payload posts nid = .created p posts1 nid1 →
      p.userID = 2 ∧
      (∀ grbn req caller, caller.id = 2 →
        checkPostOwnership grbn req caller p = .proceed) ∧
      (∀ grbn req role, ctxA.id ≠ 2 → grbn req = .ok role →
        ¬ ctxA.role.level ≥ role.level →
        checkPostOwnership grbn req ctxA p = .forbidden)) := by
  constructor
  · rfl
  · intro p posts1 nid1 h
    by_cases hv : validCreatePostPayload payload
    · have hred : createPostHandler ctxA payload posts nid =
          .created { id := nid, content := payload.content, title := payload.title,
                     userID := 2, tags := payload.tags, createdAt := "now",
                     updatedAt := "now", version := 0 }
            (posts ++ [{ id := nid, content := payload.content, title := payload.title,
                         userID := 2, tags := payload.tags, createdAt := "now",
                         updatedAt := "now", version := 0 }]) (nid + 1) := by
        simp [createPostHandler, hv, PostStore.Create]
      rw [hred] at h
      cases h
      refine ⟨rfl, ?_, ?_⟩
      · intro grbn req caller hc
        simp [checkPostOwnership, hc]
      · intro grbn req role hne hr hl
        have hbeq : ((2 : Int) == ctxA.id) = false :=
          beq_eq_false_iff_ne.mpr fun hh => hne hh.symm
        simp [checkPostOwnership, checkRolePrecedence, hbeq, hr, hl]
    · simp [createPostHandler, hv] at h

/-- Witness for C10: the handler stores the same post for two different
authenticated callers; the stored post carries owner ID 2; bob (ID 2)
passes the gate by ownership although alice created the post; alice, the
creator, is forbidden on her own post under the moderator requirement. -/
theorem C10_create_post_fixed_owner_witness :
    createPostHandler alice payload0 [] 1 = createPostHandler bob payload0 [] 1 ∧
    post0.userID = 2 ∧
    checkPostOwnership getRoleByNameT "moderator" bob post0 = .proceed ∧
    checkPostOwnership getRoleByNameT "moderator" alice post0 = .forbidden := by
  have h := C10_create_post_fixed_owner alice bob payload0 [] 1
  have h2 := h.2 post0 [post0] 2 (by decide)
  exact ⟨h.1, h2.1, h2.2.1 getRoleByNameT "moderator" bob (by decide),
    h2.2.2 getRoleByNameT "moderator" roleMod (by decide) (by decide) (by decide)⟩

/- ## Environment invariant lemmas for claim C9 -/

theorem rows_id_unique {l : List UserRow} (hp : l.Pairwise (fun a b => a.id ≠ b.id))
    {r1 r2 : UserRow} (h1 : r1 ∈ l) (h2 : r2 ∈ l) (heq : r1.id = r2.id) : r1 = r2 := by
  induction l with
  | nil => cases h1
  | cons a rest ih =>
    have hcons := List.pairwise_cons.mp hp
    rcases List.mem_cons.mp h1 with rfl | h1m
    · rcases List.mem_cons.mp h2 with rfl | h2m
      · rfl
      · exact absurd heq (hcons.1 r2 h2m)
    · rcases List.mem_cons.mp h2 with rfl | h2m
      · exact absurd heq.symm (hcons.1 r1 h1m)
      · exact ih hcons.2 h1m h2m

theorem getByID_ok_facts (db : DB) (uid : Int) (u : User)
    (h : UserStore.GetByID db uid = .ok u) :
    ∃ row ∈ db.users, row.id = uid ∧ row.isActive = true ∧ u.id = row.id := by
  unfold UserStore.GetByID at h
  cases hf : db.users.find? (fun r => r.id == uid && r.isActive) with
  | none => simp [hf] at h
  | some row =>
    simp only [hf] at h
    cases hr : db.roles.find? (fun ro => ro.id == row.roleID) with
    | none => simp [hr] at h
    | some role =>
      simp only [hr, Except.ok.injEq] at h
      have hmem := List.mem_of_find?_eq_some hf
      have hpred := List.find?_some hf
      simp only [Bool.and_eq_true, beq_iff_eq] at hpred
      exact ⟨row, hmem, hpred.1, hpred.2, by rw [← h]⟩

theorem envInv_stepOp (s : SysState) (o : Op) (h : EnvInv s) : EnvInv (stepOp s o) := by
  obtain ⟨hca, hrow, hkey, hdist⟩ := h
  cases o with
  | create u =>
    simp only [stepOp]
    cases hcr : UserStore.Create s.db u with
    | error e => exact ⟨hca, hrow, hkey, hdist⟩
    | ok p =>
      obtain ⟨db1, nid⟩ := p
      simp only [UserStore.Create] at hcr
      split at hcr
      · exact absurd hcr (by simp)
      · split at hcr
        · exact absurd hcr (by simp)
        · split at hcr
          · exact absurd hcr (by simp)
          · simp only [Except.ok.injEq, Prod.mk.injEq] at hcr
            obtain ⟨hdb, -⟩ := hcr
            subst hdb
            refine ⟨?_, ?_, ?_, ?_⟩
            · intro p hp row' hrow' hid
              rcases List.mem_append.mp hrow' with hm | hm
              · exact hca p hp row' hm hid
              · rw [List.mem_singleton.mp hm] at hid
                have hk := hkey p hp
                simp only at hid
                omega
            · intro row' hrow'
              rcases List.mem_append.mp hrow' with hm | hm
              · have := hrow row' hm
                simp only
                omega
              · rw [List.mem_singleton.mp hm]
                simp only
                omega
            · intro p hp
              have := hkey p hp
              simp only
              omega
            · rw [List.pairwise_append]
              refine ⟨hdist, by simp, ?_⟩
              intro a ha b hb
              rw [List.mem_singleton.mp hb]
              have := hrow a ha
              simp only
              omega
  | activate uid =>
    simp only [stepOp, UserStore.activateRow]
    have hfid : ∀ r : UserRow,
        ((if r.id == uid then { r with isActive := true } else r) : UserRow).id = r.id := by
      intro r
      by_cases hc : (r.id == uid) = true <;> simp [hc]
    refine ⟨?_, ?_, ?_, ?_⟩
    · intro p hp row' hrow' hid
      rcases List.mem_map.mp hrow' with ⟨r, hr, rfl⟩
      by_cases hc : (r.id == uid) = true
      · simp [hc]
      · rw [if_neg hc] at hid ⊢
        exact hca p hp r hr hid
    · intro row' hrow'
      rcases List.mem_map.mp hrow' with ⟨r, hr, rfl⟩
      rw [hfid r]
      exact hrow r hr
    · intro p hp
      simpa using hkey p hp
    · rw [List.pairwise_map]
      exact hdist.imp fun hab => by
        rw [hfid, hfid]; exact hab
  | deleteUser uid =>
    simp only [stepOp, UserStore.deleteRow]
    refine ⟨?_, ?_, ?_, ?_⟩
    · intro p hp row' hrow' hid
      exact hca p hp row' (List.mem_of_mem_filter hrow') hid
    · intro row' hrow'
      exact hrow row' (List.mem_of_mem_filter hrow')
    · intro p hp
      exact hkey p hp
    · exact hdist.sublist (List.filter_sublist _)
  | resolve uid =>
    simp only [stepOp]
    cases hcf : s.cache.find? (fun p => p.1 == uid) with
    | some p =>
      have hget : getUser true sysBackends s uid =
          (.ok p.2, s, [CallEvent.cacheGet uid]) := by
        simp [getUser, sysBackends, hcf]
      rw [hget]
      exact ⟨hca, hrow, hkey, hdist⟩
    | none =>
      cases hgb : UserStore.GetByID s.db uid with
      | error e =>
        have hget : getUser true sysBackends s uid =
            (.error e, s, [CallEvent.cacheGet uid, CallEvent.storeGetByID uid]) := by
          simp [getUser, sysBackends, hcf, hgb]
        rw [hget]
        exact ⟨hca, hrow, hkey, hdist⟩
      | ok u =>
        have hget : getUser true sysBackends s uid =
            (.ok u,
             { s with cache := (u.id, u) :: s.cache.filter (fun q => !(q.1 == u.id)) },
             [CallEvent.cacheGet uid, CallEvent.storeGetByID uid,
              CallEvent.cacheSet u.id]) := by
          simp [getUser, sysBackends, hcf, hgb]
        rw [hget]
        obtain ⟨row, hrowmem, hrowid, hrowact, huid⟩ := getByID_ok_facts s.db uid u hgb
        refine ⟨?_, hrow, ?_, hdist⟩
        · intro q hq row' hrow' hid
          rcases List.mem_cons.mp hq with rfl | hqf
          · have : row' = row := by
              apply rows_id_unique hdist hrow' hrowmem
              rw [hid]
              simp only
              rw [huid]
            rw [this]
            exact hrowact
          · exact hca q (List.mem_of_mem_filter hqf) row' hrow' hid
        · intro q hq
          rcases List.mem_cons.mp hq with rfl | hqf
          · simp only
            rw [huid]
            exact hrow row hrowmem
          · exact hkey q (List.mem_of_mem_filter hqf)

theorem envInv_runOps (s : SysState) (ops : List Op) (h : EnvInv s) :
    EnvInv (runOps s ops) := by
  induction ops generalizing s with
  | nil => exact h
  | cons o rest ih =>
    have hstep := envInv_stepOp s o h
    simpa [runOps] using ih (stepOp s o) hstep

/-- Claim C9: identity lookup by ID returns only active users — GetByID
reports not-found for every id whose users-table rows are all inactive; the
environment invariant (no cached snapshot for an id whose row is inactive)
holds initially and is preserved by every repository operation, so in every
reachable environment a request bearing a valid, unexpired token for a
deactivated user is rejected by the pipeline as Unauthorized. -/
theorem C9_deactivated_user_unauthorized (s : SysState) (ops : List Op) (uid : Int)
    (validate : List Char → Except AuthErr TokenClaims) (t : List Char)
    (claims : TokenClaims) :
    (∀ db : DB, (∀ row ∈ db.users, row.id = uid → row.isActive = false) →
      UserStore.GetByID db uid = .error .errRecordNotFound) ∧
    (EnvInv s → EnvInv (runOps s ops)) ∧
    (EnvInv s → (∃ row ∈ s.db.users, row.id = uid ∧ row.isActive = false) →
      ' ' ∉ t → validate t = .ok claims → extractSubjectID claims = some uid →
      (AuthTokenMiddleware validate true sysBackends s
          (some ("Bearer".toList ++ ' ' :: t))).1
        = .unauthorized (.resolveFailed .errRecordNotFound)) := by
  refine ⟨?_, envInv_runOps s ops, ?_⟩
  · intro db hall
    have hf : db.users.find? (fun r => r.id == uid && r.isActive) = none := by
      apply List.find?_eq_none.mpr
      intro x hx
      simp only [Bool.and_eq_true, beq_iff_eq, not_and]
      intro hid
      rw [hall x hx hid]
      simp
    simp [UserStore.GetByID, hf]
  · intro hinv hex hsp hv hx
    obtain ⟨row, hrowmem, hrowid, hrowinact⟩ := hex
    have hcf : s.cache.find? (fun p => p.1 == uid) = none := by
      cases hf : s.cache.find? (fun p => p.1 == uid) with
      | none => rfl
      | some p =>
        have hpmem := List.mem_of_find?_eq_some hf
        have hppred := List.find?_some hf
        simp only [beq_iff_eq] at hppred
        have hact := hinv.1 p hpmem row hrowmem (by rw [hrowid, hppred])
        rw [hrowinact] at hact
        exact Bool.noConfusion hact
    have hgb : UserStore.GetByID s.db uid = .error .errRecordNotFound := by
      have hf : s.db.users.find? (fun r => r.id == uid && r.isActive) = none := by
        apply List.find?_eq_none.mpr
        intro x hx
        simp only [Bool.and_eq_true, beq_iff_eq, not_and]
        intro hid
        have hxrow : x = row :=
          rows_id_unique hinv.2.2.2 hx hrowmem (by rw [hid, ← hrowid])
        rw [hxrow, hrowinact]
        simp
      simp [UserStore.GetByID, hf]
    have hget : getUser true sysBackends s uid =
        (.error .errRecordNotFound, s,
          [CallEvent.cacheGet uid, CallEvent.storeGetByID uid]) := by
      simp [getUser, sysBackends, hcf, hgb]
    rw [authTokenMiddleware_resolution sysBackends s validate t claims uid hsp hv hx,
      hget]

/-- Witness for C9: a concrete store with one deactivated user (id 7), a
concrete operation run preserving the invariant, and a concrete valid token
for id 7 that the pipeline rejects as Unauthorized. -/
theorem C9_deactivated_user_unauthorized_witness :
    UserStore.GetByID db9 7 = .error .errRecordNotFound ∧
    EnvInv (runOps s9 [Op.resolve 7, Op.activate 7, Op.deleteUser 7]) ∧
    (AuthTokenMiddleware (validateTokenString 7 1000) true sysBackends s9
        (some ("Bearer".toList ++ ' ' :: serializeToken (IssueToken 7 7 1000 3600)))).1
      = .unauthorized (.resolveFailed .errRecordNotFound) := by
  have h := C9_deactivated_user_unauthorized s9 [Op.resolve 7, Op.activate 7, Op.deleteUser 7]
    7 (validateTokenString 7 1000) (serializeToken (IssueToken 7 7 1000 3600))
    { sub := 7, exp := 4600, iat := 1000 }
  refine ⟨h.1 db9 ?_, h.2.1 ?_, h.2.2 ?_ ?_ (by decide) (by decide) (by decide)⟩
  · decide
  · decide
  · decide
  · decide
